import Mathlib

/-!
Verification of the virtual-network configuration parsers of the
packer-plugin-vmware repository (package `common`): byte filters,
the DHCP-config tokenizer/tree parser/flattener, the network-map
parser, the networking command-log replay engine and its derived
interface classification, and the query operations over the
resolved models.

Byte streams are modelled as `List Nat` (byte values), token
streams as `List String`, Go maps as association lists or as
explicitly updated functions, and the goroutine/channel pipelines
as pure recursive functions over those lists.  Go runtime panics
(out-of-range indexing) are modelled as explicit result variants.
-/

namespace VMW

/-! ## Byte filter: `uncomment` (part_000 lines 25-56)

The Go code reads bytes one at a time keeping an `endofline` flag:
a byte value 35 (the comment marker) sets the flag; a byte value 10
(newline) while the flag is set clears it; afterwards the byte is
forwarded to the output exactly when the flag is clear.  Note that
the newline that terminates a comment clears the flag *before* the
emission test, so that newline is forwarded. -/

/-- Recursive model of the `uncomment` goroutine loop: the first
argument is the remaining input bytes, the second the current
`endofline` flag. -/
def uncommentGo : List Nat → Bool → List Nat
  | [], _ => []
  | b :: rest, endofline =>
    let endofline' :=
      if b = 35 then true
      else if b = 10 ∧ endofline then false
      else endofline
    if endofline' then uncommentGo rest endofline'
    else b :: uncommentGo rest endofline'

/-- Model of `uncomment`: strip comments from a byte stream, with
the `endofline` flag initially clear. -/
def uncomment (input : List Nat) : List Nat :=
  uncommentGo input false

/-! ## Association lists standing in for Go maps -/

/-- Lookup in an association list, the model of reading a Go map. -/
def alookup {α β : Type} [DecidableEq α] : List (α × β) → α → Option β
  | [], _ => none
  | (k, v) :: rest, key => if k = key then some v else alookup rest key

/-- Insert-or-replace in an association list, the model of writing a
Go map entry. -/
def upsert {α β : Type} [DecidableEq α] : List (α × β) → α → β → List (α × β)
  | [], key, val => [(key, val)]
  | (k, v) :: rest, key, val =>
    if k = key then (key, val) :: rest else (k, v) :: upsert rest key val

/-- Delete a key from an association list, the model of Go `delete`. -/
def adelete {α β : Type} [DecidableEq α] (l : List (α × β)) (key : α) :
    List (α × β) :=
  l.filter fun kv => kv.1 ≠ key

/-! ## Network-map parser (part_000 lines 375-460)

The grammar is `network.attribute = "value"`.  The token stream
(already produced by `tokenizeNetworkMapConfig`) is folded with a
pending-token list `state`; the tokens ".", "=" and the newline are
arity checkpoints.  Values pass through `strconv.Unquote`. -/

/-- Model of Go `strconv.Unquote` restricted to the escape-free
double-quoted strings this grammar produces: the string must begin
and end with a double quote and contain no quote or backslash in
between; the quotes are removed. -/
def goUnquote (s : String) : Except String String :=
  let cs := s.toList
  if 2 ≤ cs.length ∧ cs.head? = some '"' ∧ cs.getLast? = some '"' ∧
      ∀ c ∈ (cs.drop 1).dropLast, c ≠ '"' ∧ c ≠ '\\' then
    Except.ok ⟨(cs.drop 1).dropLast⟩
  else Except.error "invalid syntax"

/-- Accumulator of `parseNetworkMapConfig`: the `unsorted` Go map
from network key to attribute table. -/
abbrev NMAcc : Type := List (String × List (String × String))

/-- Model of the `addResult` closure: unquote the value and store it
under the network and attribute keys. -/
def addResult (unsorted : NMAcc) (network attrib value : String) :
    Except String NMAcc := do
  let val ← goUnquote value
  let current := (alookup unsorted network).getD []
  return upsert unsorted network (upsert current attrib val)

/-- Recursive model of the token loop of `parseNetworkMapConfig`:
remaining tokens, pending `state` list, and the accumulated map. -/
def parseNetworkMapConfigGo : List String → List String → NMAcc →
    Except String NMAcc
  | [], state, unsorted =>
    match state with
    | [n, a, v] => addResult unsorted n a v
    | _ => Except.ok unsorted
  | tk :: rest, state, unsorted =>
    if tk = "." then
      if state.length ≠ 1 then Except.error "network index missing"
      else parseNetworkMapConfigGo rest state unsorted
    else if tk = "=" then
      if state.length ≠ 2 then Except.error "assigned to empty attribute"
      else parseNetworkMapConfigGo rest state unsorted
    else if tk = "\n" then
      match state with
      | [] => parseNetworkMapConfigGo rest [] unsorted
      | [n, a, v] => do
          let unsorted' ← addResult unsorted n a v
          parseNetworkMapConfigGo rest [] unsorted'
      | _ => Except.error "invalid attribute assignment"
    else parseNetworkMapConfigGo rest (state ++ [tk]) unsorted

/-- NetworkMap: the list of per-network attribute tables, ordered
by sorted network key. -/
abbrev NetworkMap : Type := List (List (String × String))

/-- Insert a string into an already sorted string list, part of the
model of Go `sort.Strings`. -/
def insertSorted (a : String) : List String → List String
  | [] => [a]
  | b :: rest => if a ≤ b then a :: b :: rest else b :: insertSorted a rest

/-- Insertion-sort model of Go `sort.Strings`. -/
def sortStrings (l : List String) : List String :=
  l.foldr insertSorted []

/-- Model of `parseNetworkMapConfig`: run the token loop, then emit
the per-network tables sorted by network key. -/
def parseNetworkMapConfig (tokens : List String) : Except String NetworkMap := do
  let unsorted ← parseNetworkMapConfigGo tokens [] []
  let keys := sortStrings (unsorted.map Prod.fst)
  return keys.filterMap (alookup unsorted)

/-! ## DHCP-config tree parser (part_000 lines 138-269)

`parseDhcpConfig` folds a token stream into a tree of `tkGroup`
nodes.  The Go code keeps a cursor node with parent pointers; the
model keeps the cursor as an explicit frame plus a stack of open
ancestor frames (nearest first), appending a child into its parent
when the child's scope closes — the same tree is produced because
sibling scopes open and close sequentially. -/

/-- Generic parameter line: a name plus operand tokens. -/
structure tkParameter where
  name : String
  operand : List String
deriving DecidableEq, Repr

/-- Parsed scope tree: identity line, parameter lines, child scopes. -/
inductive tkGroup where
  | node (id : tkParameter) (params : List tkParameter) (groups : List tkGroup) : tkGroup

/-- True when the token contains one of the structural bytes that
terminate a parameter line (Go `strings.ContainsAny("{};", token)`). -/
def containsBraceOrSemi (token : String) : Bool :=
  token.toList.any fun c => c = '{' ∨ c = '}' ∨ c = ';'

/-- Model of `parseTokenParameter` applied to a finite token list
(the `toParameter` closure line-terminates the list, so operands
stop at the first structural token): the first token is the name,
the following non-structural tokens are the operands. -/
def parseTokenParameter (tokens : List String) : tkParameter :=
  match tokens with
  | [] => ⟨"", []⟩
  | name :: rest => ⟨name, rest.takeWhile fun t => ¬ containsBraceOrSemi t⟩

/-- An open scope under construction. -/
structure tkFrame where
  id : tkParameter
  params : List tkParameter
  groups : List tkGroup

/-- Seal an open frame into a finished tree node. -/
def tkFrame.toGroup (f : tkFrame) : tkGroup :=
  tkGroup.node f.id f.params f.groups

/-- Fold the cursor frame back into all open ancestors, producing
the root tree built so far (what Go's `result` value holds when the
token channel closes with scopes still open). -/
def closeAll : tkFrame → List tkFrame → tkGroup
  | cur, [] => cur.toGroup
  | cur, parent :: rest =>
      closeAll { parent with groups := parent.groups ++ [cur.toGroup] } rest

/-- The two errors `parseDhcpConfig` can produce, both raised at a
closing brace. -/
inductive DhcpParseError where
  | closeGlobal
  | unterminated (tokens : List String)
deriving DecidableEq, Repr

/-- Recursive model of the `parseDhcpConfig` token loop: remaining
tokens, cursor frame, open ancestors (nearest first), pending
tokens since the last terminator. -/
def parseDhcpConfigGo : List String → tkFrame → List tkFrame → List String →
    Except DhcpParseError tkGroup
  | [], cur, anc, _pend => Except.ok (closeAll cur anc)
  | tk :: rest, cur, anc, pend =>
    if tk = "\x7b" then
      parseDhcpConfigGo rest ⟨parseTokenParameter pend, [], []⟩ (cur :: anc) []
    else if tk = "\x7d" then
      match anc with
      | [] => Except.error DhcpParseError.closeGlobal
      | parent :: ancrest =>
          if pend ≠ [] then Except.error (DhcpParseError.unterminated pend)
          else
            parseDhcpConfigGo rest
              { parent with groups := parent.groups ++ [cur.toGroup] } ancrest []
    else if tk = ";" then
      parseDhcpConfigGo rest
        { cur with params := cur.params ++ [parseTokenParameter pend] } anc []
    else
      parseDhcpConfigGo rest cur anc (pend ++ [tk])

/-- Model of `parseDhcpConfig`: start at an implicit global root
whose identity is the zero-valued parameter. -/
def parseDhcpConfig (tokens : List String) : Except DhcpParseError tkGroup :=
  parseDhcpConfigGo tokens ⟨⟨"", []⟩, [], []⟩ [] []

/-! ## Typed parameters and declarations (part_000 lines 462-937)

Go `net.IP` is a byte slice, modelled as `List Nat`; a failed
`net.ParseIP` yields the nil slice, modelled as the empty list. -/

/-- Closed variant set of DHCP parameters (the `pParameter`
interface and its implementations). -/
inductive pParameter where
  | includeFile (filename : String)
  | option (name value : String)
  | grant (verb attrib : String)
  | address4 (addrs : List String)
  | address6 (addrs : List String)
  | hardware (cls : String) (address : List Nat)
  | boolean (parameter : String) (truancy : Bool)
  | clientMatch (name data : String)
  | range4 (min max : List Nat)
  | range6 (min max : List Nat)
  | prefix6 (min max : List Nat) (bits : Int)
  | other (parameter value : String)
  | expression (parameter expr : String)
deriving DecidableEq, Repr

/-- Declaration identities (`pDeclarationGlobal` … `pDeclarationGroup`).
Subnet identities carry the `net.IPNet` network address and mask. -/
inductive pDeclId where
  | global
  | shared (name : String)
  | subnet4 (ip mask : List Nat)
  | subnet6 (ip mask : List Nat)
  | host (name : String)
  | pool
  | group
deriving DecidableEq, Repr

/-- A tree node as `createDeclaration` reads it: its identity and
its local parameters.  The node's position in the tree is given by
the chain of such records from the node up to the root (the Go
`parent` pointer walk). -/
structure pDecl where
  id : pDeclId
  parameters : List pParameter
deriving DecidableEq, Repr

/-- Grant verbs (`grant` enumeration; `ALLOW` is the zero value). -/
inductive grant where
  | ALLOW
  | IGNORE
  | DENY
deriving DecidableEq, Repr

/-- Model of the `Grant` verb lookup map inside `createDeclaration`:
a missing verb yields the Go zero value `ALLOW`. -/
def grantFor (verb : String) : grant :=
  if verb = "ignore" then grant.IGNORE
  else if verb = "allow" then grant.ALLOW
  else if verb = "deny" then grant.DENY
  else grant.ALLOW

/-- Resolved, inheritance-flattened declaration
(`ConfigDeclaration`); the Go maps are association lists. -/
structure ConfigDeclaration where
  id : List pDeclId
  composites : List pDecl
  address : List pParameter
  options : List (String × String)
  grants : List (String × grant)
  attributes : List (String × Bool)
  parameters : List (String × String)
  expressions : List (String × String)
  hostid : List (String × String)
deriving DecidableEq, Repr

/-- One step of the parameter-merging switch in
`createDeclaration`: scalar categories overwrite by key, the
client-match list and the address list append. -/
def applyParameter (r : ConfigDeclaration) (p : pParameter) : ConfigDeclaration :=
  match p with
  | pParameter.option name value => { r with options := upsert r.options name value }
  | pParameter.grant verb attrib =>
      { r with grants := upsert r.grants attrib (grantFor verb) }
  | pParameter.boolean param truancy =>
      { r with attributes := upsert r.attributes param truancy }
  | pParameter.clientMatch name data => { r with hostid := r.hostid ++ [(name, data)] }
  | pParameter.expression param e =>
      { r with expressions := upsert r.expressions param e }
  | pParameter.other param v => { r with parameters := upsert r.parameters param v }
  | p => { r with address := r.address ++ [p] }

/-- Model of `createDeclaration`.  The argument is the Go
`hierarchy` slice: the chain of declarations from the node itself
up to the root (node first).  The Go loop walks `hierarchy`
backwards, so identities are collected node-first while parameters
are merged root-first. -/
def createDeclaration (hierarchy : List pDecl) : ConfigDeclaration :=
  let base : ConfigDeclaration :=
    { id := hierarchy.map pDecl.id, composites := hierarchy,
      address := [], options := [], grants := [], attributes := [],
      parameters := [], expressions := [], hostid := [] }
  hierarchy.reverse.foldl (fun r d => d.parameters.foldl applyParameter r) base

/-! ### C1: the inheritance-resolution contract of `createDeclaration`

Specification-side functions, written from the claim's words: the
root-to-node parameter sequence, the deepest (= last in that
sequence) assignment per scalar key, and the accumulated list
categories. -/

/-- Parameters along the root-to-node path, in root-to-node order
(the hierarchy chain is node-first, hence the reversal). -/
def specChainParams (hierarchy : List pDecl) : List pParameter :=
  (hierarchy.reverse.map pDecl.parameters).flatten

/-- Deepest `option` assignment for key `k`, scanning the
root-to-node parameter sequence with an accumulator. -/
def specLastOption (acc : Option String) (ps : List pParameter) (k : String) :
    Option String :=
  ps.foldl (fun acc p =>
    match p with
    | pParameter.option n v => if n = k then some v else acc
    | _ => acc) acc

/-- Deepest grant assignment for attribute `k`. -/
def specLastGrant (acc : Option grant) (ps : List pParameter) (k : String) :
    Option grant :=
  ps.foldl (fun acc p =>
    match p with
    | pParameter.grant verb attrib => if attrib = k then some (grantFor verb) else acc
    | _ => acc) acc

/-- Deepest boolean-attribute assignment for key `k`. -/
def specLastAttribute (acc : Option Bool) (ps : List pParameter) (k : String) :
    Option Bool :=
  ps.foldl (fun acc p =>
    match p with
    | pParameter.boolean n v => if n = k then some v else acc
    | _ => acc) acc

/-- Deepest plain-parameter assignment for key `k`. -/
def specLastParameter (acc : Option String) (ps : List pParameter) (k : String) :
    Option String :=
  ps.foldl (fun acc p =>
    match p with
    | pParameter.other n v => if n = k then some v else acc
    | _ => acc) acc

/-- Deepest expression assignment for key `k`. -/
def specLastExpression (acc : Option String) (ps : List pParameter) (k : String) :
    Option String :=
  ps.foldl (fun acc p =>
    match p with
    | pParameter.expression n v => if n = k then some v else acc
    | _ => acc) acc

/-- True for the parameter variants that fall into the accumulated
`address` list (the `default` branch of the merging switch). -/
def isAddressParam : pParameter → Bool
  | pParameter.includeFile _ => true
  | pParameter.address4 _ => true
  | pParameter.address6 _ => true
  | pParameter.hardware _ _ => true
  | pParameter.range4 _ _ => true
  | pParameter.range6 _ _ => true
  | pParameter.prefix6 _ _ _ => true
  | _ => false

/-- Project a client-match parameter to its (name, data) pair. -/
def clientMatchProj : pParameter → Option (String × String)
  | pParameter.clientMatch n d => some (n, d)
  | _ => none

/-! ## Models of the Go standard-library helpers the parsers use -/

/-- Result of a Go computation that may return a value, return an
error, or abort with a runtime panic (out-of-range slice access). -/
inductive GoResult (α : Type) where
  | ok (val : α)
  | err (msg : String)
  | panic (msg : String)
deriving DecidableEq, Repr

/-- Numeric value of a decimal digit list, `none` when empty or
containing a non-digit. -/
def decDigitsVal (cs : List Char) : Option Nat :=
  if cs ≠ [] ∧ cs.all Char.isDigit then
    some (cs.foldl (fun a c => a * 10 + (c.toNat - 48)) 0)
  else none

/-- Model of Go `strconv.Atoi`: optional sign, decimal digits,
int64 bounds. -/
def goAtoi (s : String) : Option Int :=
  match s.toList with
  | '-' :: rest =>
      (decDigitsVal rest).bind fun v =>
        if (v : Int) ≤ 2 ^ 63 then some (-(v : Int)) else none
  | '+' :: rest =>
      (decDigitsVal rest).bind fun v =>
        if (v : Int) < 2 ^ 63 then some (v : Int) else none
  | cs =>
      (decDigitsVal cs).bind fun v =>
        if (v : Int) < 2 ^ 63 then some (v : Int) else none

/-- Split a character list at every occurrence of a separator
character (structural model of Go `strings.Split` with a one-byte
separator; the empty input yields one empty piece, as in Go). -/
def splitAllOnChar (sep : Char) (cs : List Char) : List (List Char) :=
  cs.foldr (fun c acc =>
    match acc with
    | g :: gs => if c = sep then [] :: g :: gs else (c :: g) :: gs
    | [] => [[c]]) [[]]

/-- Model of Go `strings.Split` with a one-character separator. -/
def goSplitChar (s : String) (sep : Char) : List String :=
  (splitAllOnChar sep s.toList).map fun g => ⟨g⟩

/-- Model of Go `strings.SplitN` with a one-character separator and
positive `n`: at most `n` pieces, the last piece keeping the
remaining separators. -/
def goSplitN (s : String) (sep : Char) (n : Nat) : List String :=
  let parts := goSplitChar s sep
  if parts.length ≤ n then parts
  else parts.take (n - 1) ++
    [String.intercalate (String.mk [sep]) (parts.drop (n - 1))]

/-- Split a character list at every occurrence of a double colon
(model of Go `strings.Split(s, "::")`). -/
def splitDoubleColonAll : List Char → List (List Char)
  | [] => [[]]
  | [c] => [[c]]
  | c1 :: c2 :: rest =>
      if c1 = ':' ∧ c2 = ':' then [] :: splitDoubleColonAll rest
      else
        match splitDoubleColonAll (c2 :: rest) with
        | g :: gs => (c1 :: g) :: gs
        | [] => [[c1]]

/-- ASCII lower-casing of one character (model of the ASCII case
of Go `strings.ToLower`, written over the character list so that it
evaluates in the kernel). -/
def charToLower (c : Char) : Char :=
  if 'A' ≤ c ∧ c ≤ 'Z' then Char.ofNat (c.toNat + 32) else c

/-- ASCII lower-casing of a string. -/
def strToLower (s : String) : String :=
  ⟨s.toList.map charToLower⟩

/-- Value of one hexadecimal digit. -/
def hexVal (c : Char) : Option Nat :=
  if c.isDigit then some (c.toNat - 48)
  else if 'a' ≤ c ∧ c ≤ 'f' then some (c.toNat - 87)
  else if 'A' ≤ c ∧ c ≤ 'F' then some (c.toNat - 55)
  else none

/-- Numeric value of a hexadecimal digit list, `none` when empty or
containing a non-hex character. -/
def hexDigitsVal (cs : List Char) : Option Nat :=
  if cs = [] then none
  else cs.foldl (fun acc c =>
    match acc, hexVal c with
    | some a, some v => some (a * 16 + v)
    | _, _ => none) (some 0)

/-- Model of Go `strconv.ParseUint(s, 16, 8)`: hex digits, value
below 2^8. -/
def goParseUintHex8 (s : String) : Option Nat :=
  (hexDigitsVal s.toList).bind fun v => if v < 256 then some v else none

/-- One group of an IPv6 literal: one to four hex digits. -/
def parseHexGroup (s : String) : Option Nat :=
  let cs := s.toList
  if cs.length = 0 ∨ 4 < cs.length then none
  else hexDigitsVal cs

/-- The two bytes of a 16-bit IPv6 group. -/
def groupBytes (v : Nat) : List Nat := [v / 256, v % 256]

/-- Model of the IPv6 form of Go `net.ParseIP` (embedded IPv4 tails
and zone suffixes are omitted — the inputs of this repository do
not use them): colon-separated 16-bit hex groups with at most one
`::` zero-run abbreviation, producing the 16 address bytes; the
empty list models the nil slice returned on malformed input. -/
def goParseIPv6 (s : String) : List Nat :=
  match (splitDoubleColonAll s.toList).map (fun g => (⟨g⟩ : String)) with
  | [whole] =>
      let gs := goSplitChar whole ':'
      if gs.length = 8 then
        match gs.mapM parseHexGroup with
        | some vs => vs.flatMap groupBytes
        | none => []
      else []
  | [l, r] =>
      let lg := if l = "" then [] else goSplitChar l ':'
      let rg := if r = "" then [] else goSplitChar r ':'
      match lg.mapM parseHexGroup, rg.mapM parseHexGroup with
      | some lv, some rv =>
          if lv.length + rv.length ≤ 7 then
            lv.flatMap groupBytes ++
              List.replicate (2 * (8 - lv.length - rv.length)) 0 ++
              rv.flatMap groupBytes
          else []
      | _, _ => []
  | _ => []

/-- True for a decimal octet as Go's dotted-quad parser accepts it:
no empty part, no leading zero, value at most 255. -/
def validOctet (s : String) : Bool :=
  match s.toList with
  | [] => false
  | '0' :: rest => rest = []
  | cs => cs.all Char.isDigit ∧ (decDigitsVal cs).getD 256 ≤ 255

/-- Model of the IPv4 form of Go `net.ParseIP`, producing the four
address bytes (the 16-byte IPv4-in-IPv6 canonical widening is
immaterial to these claims and omitted). -/
def goParseIPv4 (s : String) : List Nat :=
  let parts := goSplitChar s '.'
  if parts.length = 4 ∧ parts.all validOctet then
    parts.map fun p => (decDigitsVal p.toList).getD 0
  else []

/-- Model of Go `net.ParseIP`: the first special character decides
between the dotted-quad and the colon-grouped form; the empty list
models the nil slice returned on failure. -/
def goParseIP (s : String) : List Nat :=
  match s.toList.find? (fun c => c = '.' ∨ c = ':') with
  | some '.' => goParseIPv4 s
  | some ':' => goParseIPv6 s
  | _ => []

/-- Model of Go `net.CIDRMask(ones, bits)`: nil for an
out-of-range prefix, otherwise `bits/8` bytes with `ones` leading
one bits. -/
def cidrMask (ones : Int) (bits : Nat) : List Nat :=
  if ones < 0 ∨ (bits : Int) < ones then []
  else
    let o := ones.toNat
    (List.range (bits / 8)).map fun i =>
      if (i + 1) * 8 ≤ o then 255
      else if o ≤ i * 8 then 0
      else 256 - 2 ^ (8 - (o - i * 8))

/-- Leading-ones count of a canonical mask byte. -/
def byteOnes (b : Nat) : Option Nat :=
  if b = 0 then some 0 else if b = 128 then some 1 else if b = 192 then some 2
  else if b = 224 then some 3 else if b = 240 then some 4 else if b = 248 then some 5
  else if b = 252 then some 6 else if b = 254 then some 7 else if b = 255 then some 8
  else none

/-- Leading-ones count of a canonical mask, `none` when the mask is
not of the ones-then-zeros form. -/
def maskOnes : List Nat → Option Nat
  | [] => some 0
  | b :: rest =>
      if b = 255 then (maskOnes rest).map (8 + ·)
      else
        match byteOnes b with
        | some k => if rest.all (· = 0) then some k else none
        | none => none

/-- Model of Go `net.IPMask.Size`: (leading ones, total bits), or
(0, 0) for a non-canonical mask. -/
def maskSize (mask : List Nat) : Nat × Nat :=
  match maskOnes mask with
  | some k => (k, 8 * mask.length)
  | none => (0, 0)

/-- Model of Go `net.IP.Mask` for addresses and masks of the same
length (the only case these configs exercise): byte-wise and; nil
on length mismatch. -/
def ipMask (ip mask : List Nat) : List Nat :=
  if ip.length = mask.length then ip.zipWith Nat.land mask else []

/-- In-bounds list update; `none` models the Go panic of an
out-of-range slice write. -/
def listSet (l : List Nat) (i v : Nat) : Option (List Nat) :=
  if i < l.length then some (l.set i v) else none

/-- The host-byte fill loop of the `range6` CIDR branch: write 255
into every index of `[start, stop)`, propagating an out-of-range
write as `none`. -/
def fillFF (buf : List Nat) (start stop : Nat) : Option (List Nat) :=
  (List.range' start (stop - start)).foldlM (fun b i => listSet b i 255) buf

/-! ## Keyword interpretation: `parseParameter` (part_000 lines 643-822) -/

/-- Model of `parseParameter`.  Go slice indexing that can go out
of range is modelled with `List.get?`, an out-of-range access
becoming `GoResult.panic`.  In the `range6` CIDR branch the Go code
aliases `broadcast := network` (one shared byte slice), fills the
host bytes with 255, then uses the *byte value* `network[networkSize/8]`
as an index into that slice. -/
def parseParameter (val : tkParameter) : GoResult pParameter :=
  match val.name with
  | "include" =>
      if val.operand.length ≠ 2 then
        GoResult.err "invalid number of parameters for pParameterInclude"
      else
        match val.operand.get? 0 with
        | some name => GoResult.ok (pParameter.includeFile name)
        | none => GoResult.panic "index out of range"
  | "option" =>
      if val.operand.length ≠ 2 then
        GoResult.err "invalid number of parameters for pParameterOption"
      else
        match val.operand.get? 0, val.operand.get? 1 with
        | some name, some value => GoResult.ok (pParameter.option name value)
        | _, _ => GoResult.panic "index out of range"
  | "allow" =>
      if val.operand.length < 1 then
        GoResult.err "invalid number of parameters for pParameterGrant"
      else
        GoResult.ok (pParameter.grant "allow" (String.intercalate " " val.operand))
  | "deny" =>
      if val.operand.length < 1 then
        GoResult.err "invalid number of parameters for pParameterGrant"
      else
        GoResult.ok (pParameter.grant "deny" (String.intercalate " " val.operand))
  | "ignore" =>
      if val.operand.length < 1 then
        GoResult.err "invalid number of parameters for pParameterGrant"
      else
        GoResult.ok (pParameter.grant "ignore" (String.intercalate " " val.operand))
  | "range" =>
      if val.operand.length < 1 then
        GoResult.err "invalid number of parameters for pParameterRange4"
      else
        let idxAddress := if strToLower (val.operand.headD "") = "bootp" then 1 else 0
        if val.operand.length > 2 + idxAddress then
          GoResult.err "invalid number of parameters for pParameterRange"
        else if idxAddress + 1 > val.operand.length then
          match val.operand.get? idxAddress with
          | some a =>
              GoResult.ok (pParameter.range4 (goParseIP a) (goParseIP a))
          | none => GoResult.panic "index out of range"
        else
          match val.operand.get? idxAddress, val.operand.get? (idxAddress + 1) with
          | some a1, some a2 =>
              GoResult.ok (pParameter.range4 (goParseIP a1) (goParseIP a2))
          | _, _ => GoResult.panic "index out of range"
  | "range6" =>
      if val.operand.length = 1 then
        let address := val.operand.headD ""
        if (goSplitChar address '/').length ≥ 2 then
          match goSplitN address '/' 2 with
          | [c0, c1] =>
              let addr := goParseIP c0
              match goAtoi c1 with
              | none => GoResult.err "invalid prefix bits"
              | some bits =>
                  let mask := cidrMask bits 128
                  let network := ipMask addr mask
                  let (networkSize, totalSize) := maskSize mask
                  let hostSize := totalSize - networkSize
                  match fillFF network (networkSize / 8) (totalSize / 8) with
                  | none => GoResult.panic "index out of range"
                  | some buf =>
                      match buf.get? (networkSize / 8) with
                      | none => GoResult.panic "index out of range"
                      | some octetIndex =>
                          let bitsLeft := hostSize % 8
                          match buf.get? octetIndex with
                          | none => GoResult.panic "index out of range"
                          | some cur =>
                              match listSet buf octetIndex
                                  (Nat.lor cur (2 ^ bitsLeft - 1)) with
                              | none => GoResult.panic "index out of range"
                              | some buf' =>
                                  GoResult.ok (pParameter.range6 buf' buf')
          | _ => GoResult.err "unknown ipv6 format"
        else
          GoResult.ok (pParameter.range6 (goParseIP address) (goParseIP address))
      else if val.operand.length = 2 then
        match val.operand.get? 0, val.operand.get? 1 with
        | some a0, some a1 =>
            if strToLower a1 = "temporary" then
              GoResult.ok (pParameter.range6 (goParseIP a0) (goParseIP a0))
            else
              GoResult.ok (pParameter.range6 (goParseIP a0) (goParseIP a1))
        | _, _ => GoResult.panic "index out of range"
      else GoResult.err "invalid number of parameters for pParameterRange6"
  | "prefix6" =>
      if val.operand.length ≠ 3 then
        GoResult.err "invalid number of parameters for pParameterRange6"
      else
        match val.operand.get? 0, val.operand.get? 1, val.operand.get? 2 with
        | some a0, some a1, some a2 =>
            match goAtoi a2 with
            | none => GoResult.err "invalid bits for pParameterPrefix6"
            | some bits =>
                GoResult.ok (pParameter.prefix6 (goParseIP a0) (goParseIP a1) bits)
        | _, _, _ => GoResult.panic "index out of range"
  | "hardware" =>
      if val.operand.length ≠ 2 then
        GoResult.err "invalid number of parameters for pParameterHardware"
      else
        match val.operand.get? 0, val.operand.get? 1 with
        | some cls, some spec =>
            let octets := goSplitChar spec ':'
            if octets.length ≠ 6 then GoResult.err "invalid MAC address format"
            else
              match octets.mapM goParseUintHex8 with
              | some address => GoResult.ok (pParameter.hardware cls address)
              | none => GoResult.err "invalid hex octet"
        | _, _ => GoResult.panic "index out of range"
  | "fixed-address" => GoResult.ok (pParameter.address4 val.operand)
  | "fixed-address6" => GoResult.ok (pParameter.address6 val.operand)
  | "host-identifier" =>
      if val.operand.length ≠ 3 then
        GoResult.err "invalid number of parameters for pParameterClientMatch"
      else
        match val.operand.get? 0, val.operand.get? 1, val.operand.get? 2 with
        | some a0, some a1, some a2 =>
            if a0 ≠ "option" then GoResult.err "invalid match parameter"
            else GoResult.ok (pParameter.clientMatch a1 a2)
        | _, _, _ => GoResult.panic "index out of range"
  | name =>
      let length := val.operand.length
      if length < 1 then GoResult.ok (pParameter.boolean name true)
      else if 1 < length ∧ val.operand.headD "" = "=" then
        GoResult.ok (pParameter.expression name (String.join (val.operand.drop 1)))
      else if length ≠ 1 then
        GoResult.err "invalid number of parameters for pParameterOther"
      else if strToLower name = "not" then
        GoResult.ok (pParameter.boolean (val.operand.headD "") false)
      else
        GoResult.ok (pParameter.other name (val.operand.headD ""))

/-! ## Accessors over resolved declarations (part_000 lines 1030-1219) -/

/-- Project a hardware parameter to its (class, address) pair. -/
def hardwareProj : pParameter → Option (String × List Nat)
  | pParameter.hardware cls addr => some (cls, addr)
  | _ => none

/-- Model of `ConfigDeclaration.Hardware`.  The Go code collects
the hardware parameters from the `address` list, returns the
"more than one" error whenever `len(result) > 0`, and otherwise
indexes `result[0]` — which, being reachable only with an empty
`result`, is an out-of-range access modelled as the panic variant. -/
def ConfigDeclaration.Hardware (e : ConfigDeclaration) : GoResult (List Nat) :=
  let result := e.address.filterMap hardwareProj
  if result.length > 0 then
    GoResult.err "more than one hardware address returned"
  else
    match result.get? 0 with
    | none => GoResult.panic "index out of range"
    | some r => GoResult.ok r.2

/-! ## Query façade over a DhcpConfiguration -/

/-- A configuration is the pre-order list of resolved declarations. -/
abbrev DhcpConfiguration : Type := List ConfigDeclaration

/-- Model of `net.IPNet.Contains` for an address given in the same
length family as the network (the 4-byte/16-byte widening of mixed
families is immaterial to these claims): equal lengths and
byte-wise masked equality. -/
def ipnetContains (network mask ip : List Nat) : Bool :=
  ip.length = network.length ∧
    (List.zip (List.zip network mask) ip).all fun nmb =>
      nmb.1.1.land nmb.1.2 = nmb.2.land nmb.1.2

/-- True when a declaration's first identity is a subnet declaring
a network that contains the address (the Go switch on
`entry.id[0]`; declarations produced by `createDeclaration` always
have a non-empty identity chain, so the head access is safe). -/
def matchesSubnet (address : List Nat) (entry : ConfigDeclaration) : Bool :=
  match entry.id.head? with
  | some (pDeclId.subnet4 net mask) => ipnetContains net mask address
  | some (pDeclId.subnet6 net mask) => ipnetContains net mask address
  | _ => false

/-- Model of Go `strings.EqualFold` for ASCII names. -/
def eqFold (a b : String) : Bool :=
  strToLower a = strToLower b

/-- True when a declaration's first identity is a host whose name
matches case-insensitively. -/
def matchesHost (host : String) (entry : ConfigDeclaration) : Bool :=
  match entry.id.head? with
  | some (pDeclId.host name) => eqFold name host
  | _ => false

/-- Model of `DhcpConfiguration.SubnetByAddress`: collect matching
declarations, fail on zero or more than one, return the unique one. -/
def SubnetByAddress (e : DhcpConfiguration) (address : List Nat) :
    Except String ConfigDeclaration :=
  match e.filter (matchesSubnet address) with
  | [] => Except.error "no network declarations containing address found"
  | [r] => Except.ok r
  | _ => Except.error "more than one network declaration found"

/-- Model of `DhcpConfiguration.HostByName`. -/
def HostByName (e : DhcpConfiguration) (host : String) :
    Except String ConfigDeclaration :=
  match e.filter (matchesHost host) with
  | [] => Except.error "no host declarations containing host found"
  | [r] => Except.ok r
  | _ => Except.error "more than one host declaration found"

/-! ## Networking-log command entries and replay (part_000 lines 1280-1995) -/

/-- Fuel-bounded decimal digits (model of Go integer formatting;
30 digits cover every int64). -/
def natDigitsRev (fuel n : Nat) : List Char :=
  match fuel with
  | 0 => []
  | fuel + 1 =>
      if n < 10 then [Char.ofNat (48 + n)]
      else Char.ofNat (48 + n % 10) :: natDigitsRev fuel (n / 10)

/-- Decimal representation of a natural number. -/
def natRepr (n : Nat) : String :=
  ⟨(natDigitsRev 30 n).reverse⟩

/-- Model of Go `%d` formatting of an int. -/
def intRepr (i : Int) : String :=
  if i < 0 then "-" ++ natRepr i.natAbs else natRepr i.toNat

/-- One lowercase hexadecimal digit. -/
def hexDigitChar (n : Nat) : Char :=
  if n < 10 then Char.ofNat (48 + n) else Char.ofNat (87 + n)

/-- Two-digit lowercase hex of one byte. -/
def byteHex (b : Nat) : String :=
  ⟨[hexDigitChar (b / 16), hexDigitChar (b % 16)]⟩

/-- Model of `net.HardwareAddr.String`: colon-separated lowercase
hex bytes. -/
def macRepr (mac : List Nat) : String :=
  String.intercalate ":" (mac.map byteHex)

/-- Model of the `%s` form of a `net.IP` for the dotted-quad case
(the exact IPv6 textual form is immaterial to these claims). -/
def ipRepr (ip : List Nat) : String :=
  if ip.length = 4 then String.intercalate "." (ip.map natRepr)
  else String.intercalate ":" (ip.map byteHex)

/-- The `VNET_<n>_<option>` token of answer rows. -/
structure networkingVNET where
  value : String
deriving DecidableEq, Repr

/-- Model of `networkingVNET.Number`: the decimal index, or -1 (Go
`^0`) when it does not parse.  (Go indexes the second part
unconditionally; the replay engine only calls this on tokens that
passed `Valid`, so the missing-part case is modelled as the failed
parse of an empty string.) -/
def networkingVNET.Number (s : networkingVNET) : Int :=
  let tokens := goSplitN s.value '_' 3
  match goAtoi (tokens.getD 1 "") with
  | some v => v
  | none => -1

/-- Model of `networkingVNET.Option`: the third part, or the empty
string when absent. -/
def networkingVNET.Option (s : networkingVNET) : String :=
  let tokens := goSplitN s.value '_' 3
  if tokens.length = 3 then tokens.getD 2 "" else ""

/-- Closed variant set of networking-log commands (the Go
one-active-field struct family; `NatPref` renders the source's
NAT-prefix commands). -/
inductive networkingCommandEntry where
  | answer (vnet : networkingVNET) (value : String)
  | removeAnswer (vnet : networkingVNET)
  | addNatPortFwd (vnet : Int) (protocol : String) (port : Int)
      (targetHost : List Nat) (targetPort : Int)
  | removeNatPortFwd (vnet : Int) (protocol : String) (port : Int)
  | addDhcpMacToIp (vnet : Int) (mac : List Nat) (ip : List Nat)
  | removeDhcpMacToIp (vnet : Int) (mac : List Nat)
  | addBridgeMapping (intf : String) (vnet : Int)
  | removeBridgeMapping (intf : String)
  | addNatPref (vnet : Int) (pre : Int)
  | removeNatPref (vnet : Int) (pre : Int)
deriving DecidableEq, Repr

/-- Materialized replay state (`NetworkingConfig`), Go maps as
association lists. -/
structure NetworkingConfig where
  answer : List (Int × List (String × String))
  natPortFwd : List (Int × List (String × String))
  dhcpMacToIp : List (Int × List (String × List Nat))
  bridgeMapping : List (String × Int)
  natPref : List (Int × List Int)
deriving DecidableEq, Repr

/-- The zero-valued `NetworkingConfig{}` returned on error paths
(with all tables empty). -/
def emptyNetworkingConfig : NetworkingConfig :=
  { answer := [], natPortFwd := [], dhcpMacToIp := [], bridgeMapping := [],
    natPref := [] }

/-- Remove the first occurrence only (the `remove_nat_prefix` loop
with its `break`). -/
def removeFirstInt : List Int → Int → List Int
  | [], _ => []
  | x :: rest, p => if x = p then rest else x :: removeFirstInt rest p

/-- One step of `flattenNetworkingConfig`, threading the replayed
state and the list of emitted log lines.  The host-interface
warnings of the bridge-mapping commands depend on the machine's
interfaces, not on the replayed configuration, and are outside this
model; every state-dependent log line is modelled. -/
def flattenStep (acc : NetworkingConfig × List String)
    (e : networkingCommandEntry) : NetworkingConfig × List String :=
  let c := acc.1
  let logs := acc.2
  match e with
  | networkingCommandEntry.answer vnet value =>
      let n := vnet.Number
      let answers := (alookup c.answer n).getD []
      ({ c with answer := upsert c.answer n (upsert answers vnet.Option value) },
       logs)
  | networkingCommandEntry.removeAnswer vnet =>
      let n := vnet.Number
      match alookup c.answer n with
      | some answers =>
          ({ c with answer := upsert c.answer n (adelete answers vnet.Option) },
           logs)
      | none =>
          (c, logs ++ ["unable to remove answer as specified by remove_answer"])
  | networkingCommandEntry.addNatPortFwd vnet protocol port host tport =>
      let protoport := protocol ++ "/" ++ intRepr port
      let target := ipRepr host ++ ":" ++ intRepr tport
      let portfwds := (alookup c.natPortFwd vnet).getD []
      ({ c with natPortFwd := upsert c.natPortFwd vnet (upsert portfwds protoport target) },
       logs)
  | networkingCommandEntry.removeNatPortFwd vnet protocol port =>
      let protoport := protocol ++ "/" ++ intRepr port
      match alookup c.natPortFwd vnet with
      | some portfwds =>
          ({ c with natPortFwd := upsert c.natPortFwd vnet (adelete portfwds protoport) },
           logs)
      | none =>
          (c, logs ++ ["unable to remove nat port-forward as requested by remove_nat_portfwd"])
  | networkingCommandEntry.addDhcpMacToIp vnet mac ip =>
      let dhcpmacs := (alookup c.dhcpMacToIp vnet).getD []
      ({ c with dhcpMacToIp := upsert c.dhcpMacToIp vnet (upsert dhcpmacs (macRepr mac) ip) },
       logs)
  | networkingCommandEntry.removeDhcpMacToIp vnet mac =>
      match alookup c.dhcpMacToIp vnet with
      | some dhcpmacs =>
          ({ c with dhcpMacToIp := upsert c.dhcpMacToIp vnet (adelete dhcpmacs (macRepr mac)) },
           logs)
      | none =>
          (c, logs ++ ["unable to remove dhcp_mac_to_ip entry as specified by remove_dhcp_mac_to_ip"])
  | networkingCommandEntry.addBridgeMapping intf vnet =>
      ({ c with bridgeMapping := upsert c.bridgeMapping intf vnet }, logs)
  | networkingCommandEntry.removeBridgeMapping intf =>
      ({ c with bridgeMapping := adelete c.bridgeMapping intf }, logs)
  | networkingCommandEntry.addNatPref vnet p =>
      match alookup c.natPref vnet with
      | some l => ({ c with natPref := upsert c.natPref vnet (l ++ [p]) }, logs)
      | none => ({ c with natPref := upsert c.natPref vnet [p] }, logs)
  | networkingCommandEntry.removeNatPref vnet p =>
      match alookup c.natPref vnet with
      | some l => ({ c with natPref := upsert c.natPref vnet (removeFirstInt l p) }, logs)
      | none =>
          (c, logs ++ ["unable to remove nat prefix as specified by remove_nat_prefix"])

/-- Model of `flattenNetworkingConfig`: replay the entries in file
order over the empty state, collecting the log lines. -/
def flattenNetworkingConfig (entries : List networkingCommandEntry) :
    NetworkingConfig × List String :=
  entries.foldl flattenStep (emptyNetworkingConfig, [])

/-! ## Networking command-row parsers and the version gate -/

/-- Interface roles (`NetworkingType`). -/
inductive NetworkingType where
  | Hostonly
  | Nat
  | Bridged
deriving DecidableEq, Repr

/-- Point update of the classification map. -/
def updateMap (m : Int → Option NetworkingType) (k : Int) (v : NetworkingType) :
    Int → Option NetworkingType :=
  fun x => if x = k then some v else m x

/-- The per-table branch of the answer walk: a virtual adapter is
Nat or Hostonly by its `NAT` answer, anything else is an alias of a
bridge.  (The missing `HOSTONLY_SUBNET`/`HOSTONLY_NETMASK` check
only logs and derives nothing.) -/
def answerClass (table : List (String × String)) : NetworkingType :=
  if (alookup table "VIRTUAL_ADAPTER").getD "" = "yes" then
    if (alookup table "NAT").getD "" = "yes" then NetworkingType.Nat
    else NetworkingType.Hostonly
  else NetworkingType.Bridged

/-- Model of `networkingConfigInterfaceTypes`: hard-coded defaults,
then the bridge-mapping walk, then the answer walk — each later
write overwriting earlier ones. -/
def networkingConfigInterfaceTypes (config : NetworkingConfig) :
    Int → Option NetworkingType :=
  let defaults :=
    updateMap (updateMap (updateMap (fun _ => none) 0 NetworkingType.Bridged)
      1 NetworkingType.Hostonly) 8 NetworkingType.Nat
  let withBridge := config.bridgeMapping.foldl
    (fun r kv => updateMap r kv.2 NetworkingType.Bridged) defaults
  config.answer.foldl (fun r kv => updateMap r kv.1 (answerClass kv.2)) withBridge

/-- The configuration refuting C2: network 2 is both a value of the
bridge-mapping table and the owner of a virtual-adapter answer
table with `NAT=yes`. -/
def c2Config : NetworkingConfig :=
  { answer := [((2 : Int), [("VIRTUAL_ADAPTER", "yes"), ("NAT", "yes")])],
    natPortFwd := [], dhcpMacToIp := [],
    bridgeMapping := [("en0", (2 : Int))], natPref := [] }

/-- The defaults map as the spec words it: index 0 Bridged, index 1
Hostonly, index 8 Nat. -/
def specDefaults : Int → Option NetworkingType :=
  fun x =>
    if x = 0 then some NetworkingType.Bridged
    else if x = 1 then some NetworkingType.Hostonly
    else if x = 8 then some NetworkingType.Nat
    else none

/-- C9.  The claim states that the comment stripper removes every
byte from the comment marker through *and including* the
terminating newline, so that the output for a line ending in a
comment contains neither the comment text nor that line's newline
byte.  On the byte stream "a#b\nc" (bytes 97, 35, 98, 10, 99) the
code outputs bytes 97, 10, 99: the comment body is removed but the
newline byte 10 is retained, refuting the claim. -/
theorem uncomment_keeps_comment_newline :
    uncomment [97, 35, 98, 10, 99] = [97, 10, 99] ∧
      10 ∈ uncomment [97, 35, 98, 10, 99] := by
  constructor
  · decide
  · decide

/-- Helper for the amended C9 theorem: while the `endofline` flag
is set, every byte other than a newline is dropped and leaves the
flag set. -/
theorem uncommentGo_drop_comment (comment : List Nat) (rest : List Nat)
    (hc : 10 ∉ comment) :
    uncommentGo (comment ++ 10 :: rest) true = 10 :: uncommentGo rest false := by
  induction comment with
  | nil => simp [uncommentGo]
  | cons b bs ih =>
      have hb : b ≠ 10 := by
        intro h; exact hc (by simp [h])
      have hbs : 10 ∉ bs := fun h => hc (List.mem_cons_of_mem _ h)
      by_cases h35 : b = 35
      · simpa [uncommentGo, h35] using ih hbs
      · simp [uncommentGo, h35, hb, ih hbs]

/-- C9 (amended).  The comment stripper removes every byte from the
comment marker up to but *excluding* the terminating newline: for a
prefix free of comment markers and a comment body free of newlines,
the output is the prefix, then the newline byte itself, then the
stripped remainder of the stream. -/
theorem uncomment_strips_to_newline_exclusive
    (pre comment rest : List Nat)
    (hpre : 35 ∉ pre) (hc : 10 ∉ comment) :
    uncomment (pre ++ 35 :: comment ++ 10 :: rest) =
      pre ++ 10 :: uncomment rest := by
  unfold uncomment
  induction pre with
  | nil =>
      simpa [uncommentGo] using uncommentGo_drop_comment comment rest hc
  | cons b bs ih =>
      have hb : b ≠ 35 := by
        intro h; exact hpre (by simp [h])
      have hbs : 35 ∉ bs := fun h => hpre (List.mem_cons_of_mem _ h)
      have ih' := ih hbs
      simp only [List.append_assoc, List.cons_append] at ih' ⊢
      simp [uncommentGo, hb, ih']

/-- Witness for the amended C9 theorem at the concrete stream
"a#b\nc" with an empty remainder after the comment line. -/
theorem uncomment_strips_to_newline_exclusive_witness :
    uncomment ([97] ++ 35 :: [98] ++ 10 :: [99]) = [97] ++ 10 :: uncomment [99] :=
  uncomment_strips_to_newline_exclusive [97] [98] [99]
    (by decide) (by decide)

/-- C8 counterexample.  The claim states that end-of-input with a
non-empty pending list of other than exactly three tokens fails
with a positional error; but on the token stream "a", ".", "b"
(two pending tokens at end-of-input) the parser silently discards
the pending tokens and returns an empty map with no error. -/
theorem parseNetworkMapConfig_eof_silent_counterexample :
    parseNetworkMapConfig ["a", ".", "b"] = Except.ok [] := by rfl

/-- C8 (amended).  The in-stream checkpoints hold as claimed: a "."
token with other than exactly one pending token fails, an "=" token
with other than exactly two fails, and a newline with a non-empty
pending list of other than exactly three fails.  At end-of-input,
however, a pending list of exactly three tokens is committed and
any other pending list is silently discarded without error. -/
theorem parseNetworkMapConfig_checkpoints :
    (∀ rest state acc, state.length ≠ 1 →
      parseNetworkMapConfigGo ("." :: rest) state acc =
        Except.error "network index missing") ∧
    (∀ rest state acc, state.length ≠ 2 →
      parseNetworkMapConfigGo ("=" :: rest) state acc =
        Except.error "assigned to empty attribute") ∧
    (∀ rest state acc, state ≠ [] → state.length ≠ 3 →
      parseNetworkMapConfigGo ("\n" :: rest) state acc =
        Except.error "invalid attribute assignment") ∧
    (∀ n a v acc, parseNetworkMapConfigGo [] [n, a, v] acc = addResult acc n a v) ∧
    (∀ state acc, state.length ≠ 3 → parseNetworkMapConfigGo [] state acc =
      Except.ok acc) := by
  refine ⟨?_, ?_, ?_, ?_, ?_⟩
  · intro rest state acc h
    simp [parseNetworkMapConfigGo, h]
  · intro rest state acc h
    simp [parseNetworkMapConfigGo, h]
  · intro rest state acc hne h
    match state with
    | [] => exact absurd rfl hne
    | [x] => simp [parseNetworkMapConfigGo]
    | [x, y] => simp [parseNetworkMapConfigGo]
    | [x, y, z] => exact absurd rfl h
    | x :: y :: z :: w :: t => simp [parseNetworkMapConfigGo]
  · intro n a v acc
    rfl
  · intro state acc h
    match state with
    | [] => rfl
    | [x] => rfl
    | [x, y] => rfl
    | [x, y, z] => exact absurd rfl h
    | x :: y :: z :: w :: t => rfl

/-- Witness for the amended C8 theorem: a "." token with an empty
pending list fails, and end-of-input with two pending tokens
returns the accumulator unchanged. -/
theorem parseNetworkMapConfig_checkpoints_witness :
    parseNetworkMapConfigGo ["."] [] [] = Except.error "network index missing" ∧
      parseNetworkMapConfigGo [] ["a", "b"] [] = Except.ok [] :=
  ⟨parseNetworkMapConfig_checkpoints.1 [] [] [] (by decide),
   parseNetworkMapConfig_checkpoints.2.2.2.2 ["a", "b"] [] (by decide)⟩

/-- C10.  End-of-input inside nested scopes, or with pending
unterminated tokens, is not a structural violation: from any parser
state, end-of-input returns the tree built so far with no error
(the pending tokens are dropped); in particular every token stream
free of closing braces parses without error.  In contrast, a stray
closing brace at the global scope and pending tokens at a closing
brace are explicit errors. -/
theorem parseDhcpConfig_eof_tolerant :
    (∀ (cur : tkFrame) (anc : List tkFrame) (pend : List String),
      parseDhcpConfigGo [] cur anc pend = Except.ok (closeAll cur anc)) ∧
    (∀ tokens : List String, "\x7d" ∉ tokens →
      ∃ t, parseDhcpConfig tokens = Except.ok t) ∧
    (∀ rest cur pend, parseDhcpConfigGo ("\x7d" :: rest) cur [] pend =
      Except.error DhcpParseError.closeGlobal) ∧
    (∀ rest cur parent ancrest pend, pend ≠ [] →
      parseDhcpConfigGo ("\x7d" :: rest) cur (parent :: ancrest) pend =
        Except.error (DhcpParseError.unterminated pend)) := by
  refine ⟨fun cur anc pend => rfl, ?_, fun rest cur pend => rfl, ?_⟩
  · have main : ∀ (tokens : List String) (cur : tkFrame) (anc : List tkFrame)
        (pend : List String), "\x7d" ∉ tokens →
        ∃ t, parseDhcpConfigGo tokens cur anc pend = Except.ok t := by
      intro tokens
      induction tokens with
      | nil => intro cur anc pend _; exact ⟨closeAll cur anc, rfl⟩
      | cons tk rest ih =>
          intro cur anc pend h
          have htk : tk ≠ "\x7d" := fun he => h (by simp [he])
          have hrest : "\x7d" ∉ rest := fun he => h (List.mem_cons_of_mem _ he)
          by_cases h1 : tk = "\x7b"
          · simpa [parseDhcpConfigGo, h1] using
              ih ⟨parseTokenParameter pend, [], []⟩ (cur :: anc) [] hrest
          · by_cases h2 : tk = ";"
            · simpa [parseDhcpConfigGo, h1, h2] using
                ih { cur with params := cur.params ++ [parseTokenParameter pend] }
                  anc [] hrest
            · simpa [parseDhcpConfigGo, h1, h2, htk] using
                ih cur anc (pend ++ [tk]) hrest
    exact fun tokens h => main tokens ⟨⟨"", []⟩, [], []⟩ [] [] h
  · intro rest cur parent ancrest pend h
    simp [parseDhcpConfigGo, h]

/-- Witness for C10: a stream that ends inside an open host scope
with a pending token still parses, a lone closing brace is the
global-close error, and a closing brace over pending tokens inside
a scope is the unterminated-tokens error. -/
theorem parseDhcpConfig_eof_tolerant_witness :
    (∃ t, parseDhcpConfig ["host", "a", "\x7b", "fixed-address"] = Except.ok t) ∧
      parseDhcpConfigGo ["\x7d"] ⟨⟨"", []⟩, [], []⟩ [] [] =
        Except.error DhcpParseError.closeGlobal ∧
      parseDhcpConfigGo ["\x7d"] ⟨⟨"host", ["a"]⟩, [], []⟩ [⟨⟨"", []⟩, [], []⟩] ["b"] =
        Except.error (DhcpParseError.unterminated ["b"]) :=
  ⟨parseDhcpConfig_eof_tolerant.2.1 ["host", "a", "\x7b", "fixed-address"] (by decide),
   parseDhcpConfig_eof_tolerant.2.2.1 [] ⟨⟨"", []⟩, [], []⟩ [],
   parseDhcpConfig_eof_tolerant.2.2.2 [] ⟨⟨"host", ["a"]⟩, [], []⟩ ⟨⟨"", []⟩, [], []⟩ []
     ["b"] (by decide)⟩

theorem alookup_upsert {α β : Type} [DecidableEq α] (l : List (α × β))
    (key : α) (val : β) (k : α) :
    alookup (upsert l key val) k = if key = k then some val else alookup l k := by
  induction l with
  | nil => simp [upsert, alookup]
  | cons kv rest ih =>
      obtain ⟨k', v'⟩ := kv
      by_cases h : k' = key
      · subst h
        simp [upsert, alookup]
        by_cases hk : k' = k <;> simp [hk]
      · simp only [upsert, if_neg h]
        by_cases hk : k' = k
        · subst hk
          have : ¬ key = k' := fun he => h he.symm
          simp [alookup, this]
        · simp [alookup, hk, ih]

theorem applyParameter_options (r : ConfigDeclaration) (p : pParameter) (k : String) :
    alookup (applyParameter r p).options k =
      match p with
      | pParameter.option n v => if n = k then some v else alookup r.options k
      | _ => alookup r.options k := by
  cases p <;> simp [applyParameter, alookup_upsert]

theorem applyParameter_grants (r : ConfigDeclaration) (p : pParameter) (k : String) :
    alookup (applyParameter r p).grants k =
      match p with
      | pParameter.grant verb attrib =>
          if attrib = k then some (grantFor verb) else alookup r.grants k
      | _ => alookup r.grants k := by
  cases p <;> simp [applyParameter, alookup_upsert]

theorem applyParameter_attributes (r : ConfigDeclaration) (p : pParameter) (k : String) :
    alookup (applyParameter r p).attributes k =
      match p with
      | pParameter.boolean n v => if n = k then some v else alookup r.attributes k
      | _ => alookup r.attributes k := by
  cases p <;> simp [applyParameter, alookup_upsert]

theorem applyParameter_parameters (r : ConfigDeclaration) (p : pParameter) (k : String) :
    alookup (applyParameter r p).parameters k =
      match p with
      | pParameter.other n v => if n = k then some v else alookup r.parameters k
      | _ => alookup r.parameters k := by
  cases p <;> simp [applyParameter, alookup_upsert]

theorem applyParameter_expressions (r : ConfigDeclaration) (p : pParameter) (k : String) :
    alookup (applyParameter r p).expressions k =
      match p with
      | pParameter.expression n v => if n = k then some v else alookup r.expressions k
      | _ => alookup r.expressions k := by
  cases p <;> simp [applyParameter, alookup_upsert]

theorem applyParameter_address (r : ConfigDeclaration) (p : pParameter) :
    (applyParameter r p).address =
      r.address ++ if isAddressParam p then [p] else [] := by
  cases p <;> simp [applyParameter, isAddressParam]

theorem applyParameter_hostid (r : ConfigDeclaration) (p : pParameter) :
    (applyParameter r p).hostid =
      r.hostid ++ (clientMatchProj p).toList := by
  cases p <;> simp [applyParameter, clientMatchProj]

theorem foldl_applyParameter_options (ps : List pParameter)
    (r : ConfigDeclaration) (k : String) :
    alookup (ps.foldl applyParameter r).options k =
      specLastOption (alookup r.options k) ps k := by
  induction ps generalizing r with
  | nil => rfl
  | cons p ps ih =>
      rw [List.foldl_cons, ih, applyParameter_options]
      cases p <;> rfl

theorem foldl_applyParameter_grants (ps : List pParameter)
    (r : ConfigDeclaration) (k : String) :
    alookup (ps.foldl applyParameter r).grants k =
      specLastGrant (alookup r.grants k) ps k := by
  induction ps generalizing r with
  | nil => rfl
  | cons p ps ih =>
      rw [List.foldl_cons, ih, applyParameter_grants]
      cases p <;> rfl

theorem foldl_applyParameter_attributes (ps : List pParameter)
    (r : ConfigDeclaration) (k : String) :
    alookup (ps.foldl applyParameter r).attributes k =
      specLastAttribute (alookup r.attributes k) ps k := by
  induction ps generalizing r with
  | nil => rfl
  | cons p ps ih =>
      rw [List.foldl_cons, ih, applyParameter_attributes]
      cases p <;> rfl

theorem foldl_applyParameter_parameters (ps : List pParameter)
    (r : ConfigDeclaration) (k : String) :
    alookup (ps.foldl applyParameter r).parameters k =
      specLastParameter (alookup r.parameters k) ps k := by
  induction ps generalizing r with
  | nil => rfl
  | cons p ps ih =>
      rw [List.foldl_cons, ih, applyParameter_parameters]
      cases p <;> rfl

theorem foldl_applyParameter_expressions (ps : List pParameter)
    (r : ConfigDeclaration) (k : String) :
    alookup (ps.foldl applyParameter r).expressions k =
      specLastExpression (alookup r.expressions k) ps k := by
  induction ps generalizing r with
  | nil => rfl
  | cons p ps ih =>
      rw [List.foldl_cons, ih, applyParameter_expressions]
      cases p <;> rfl

theorem foldl_applyParameter_address (ps : List pParameter) (r : ConfigDeclaration) :
    (ps.foldl applyParameter r).address = r.address ++ ps.filter isAddressParam := by
  induction ps generalizing r with
  | nil => simp
  | cons p ps ih =>
      rw [List.foldl_cons, ih, applyParameter_address]
      by_cases h : isAddressParam p <;> simp [h, List.filter_cons]

theorem foldl_applyParameter_hostid (ps : List pParameter) (r : ConfigDeclaration) :
    (ps.foldl applyParameter r).hostid = r.hostid ++ ps.filterMap clientMatchProj := by
  induction ps generalizing r with
  | nil => simp
  | cons p ps ih =>
      rw [List.foldl_cons, ih, applyParameter_hostid]
      cases p <;> simp [clientMatchProj, List.filterMap_cons]

theorem foldl_scopes_eq_flat (ds : List pDecl) (r : ConfigDeclaration) :
    ds.foldl (fun r d => d.parameters.foldl applyParameter r) r =
      ((ds.map pDecl.parameters).flatten).foldl applyParameter r := by
  induction ds generalizing r with
  | nil => rfl
  | cons d ds ih => simp [List.foldl_append, ih]

/-- The nested per-scope fold equals one fold over the concatenated
root-to-node parameter sequence. -/
theorem createDeclaration_eq_flat_fold (hierarchy : List pDecl) :
    createDeclaration hierarchy =
      (specChainParams hierarchy).foldl applyParameter
        { id := hierarchy.map pDecl.id, composites := hierarchy,
          address := [], options := [], grants := [], attributes := [],
          parameters := [], expressions := [], hostid := [] } :=
  foldl_scopes_eq_flat hierarchy.reverse _

/-- C1.  For every root-to-node chain (the `hierarchy` walked by
`createDeclaration`; the chain is node-first exactly as Go builds
it) and every key, each scalar map of the resolved declaration
holds the value assigned deepest along the root-to-node parameter
sequence, and the list-valued categories (address parameters and
host-identifier client matches) are the order-preserving
accumulation of the whole sequence. -/
theorem createDeclaration_inheritance (hierarchy : List pDecl) (k : String) :
    alookup (createDeclaration hierarchy).options k =
        specLastOption none (specChainParams hierarchy) k ∧
      alookup (createDeclaration hierarchy).grants k =
        specLastGrant none (specChainParams hierarchy) k ∧
      alookup (createDeclaration hierarchy).attributes k =
        specLastAttribute none (specChainParams hierarchy) k ∧
      alookup (createDeclaration hierarchy).parameters k =
        specLastParameter none (specChainParams hierarchy) k ∧
      alookup (createDeclaration hierarchy).expressions k =
        specLastExpression none (specChainParams hierarchy) k ∧
      (createDeclaration hierarchy).address =
        (specChainParams hierarchy).filter isAddressParam ∧
      (createDeclaration hierarchy).hostid =
        (specChainParams hierarchy).filterMap clientMatchProj := by
  rw [createDeclaration_eq_flat_fold]
  refine ⟨?_, ?_, ?_, ?_, ?_, ?_, ?_⟩
  · rw [foldl_applyParameter_options]; rfl
  · rw [foldl_applyParameter_grants]; rfl
  · rw [foldl_applyParameter_attributes]; rfl
  · rw [foldl_applyParameter_parameters]; rfl
  · rw [foldl_applyParameter_expressions]; rfl
  · rw [foldl_applyParameter_address]; rfl
  · rw [foldl_applyParameter_hostid]; rfl

/-- C3.  The claim states that parsing `range6 2001:db8::/64`
returns, without error, a range whose min is the masked network
address and whose max has all 64 host bits set.  The code instead
panics: `broadcast := network` aliases one slice, the fill loop
sets bytes 8..15 of it to 255, and then the *byte value*
`network[8]` (now 255) is used as an index, so the write
`broadcast[255]` is out of range for the 16-byte address.  The
model evaluates the branch to the panic variant. -/
theorem parseParameter_range6_cidr_panics :
    parseParameter ⟨"range6", ["2001:db8::/64"]⟩ =
      GoResult.panic "index out of range" := by
  rfl

/-- C4.  The claim states the accessor never panics, returns an
error on zero hardware parameters, and returns the address when
exactly one is present.  The code inverts the arity check: any
declaration with no hardware parameter panics on `result[0]`, and a
declaration with exactly one hardware parameter is rejected with
the "more than one" error. -/
theorem ConfigDeclaration_Hardware_inverted :
    (∀ e : ConfigDeclaration, e.address.filterMap hardwareProj = [] →
      e.Hardware = GoResult.panic "index out of range") ∧
    (∀ e : ConfigDeclaration, (e.address.filterMap hardwareProj).length = 1 →
      e.Hardware = GoResult.err "more than one hardware address returned") := by
  constructor
  · intro e h
    simp [ConfigDeclaration.Hardware, h]
  · intro e h
    obtain ⟨x, hx⟩ := List.length_eq_one.mp h
    simp [ConfigDeclaration.Hardware, hx]

/-- Witness for C4 at two concrete declarations: one with an empty
address list (panic) and one holding exactly one hardware address
(rejected as "more than one"). -/
theorem ConfigDeclaration_Hardware_inverted_witness :
    ConfigDeclaration.Hardware
        ⟨[pDeclId.global], [], [], [], [], [], [], [], []⟩ =
      GoResult.panic "index out of range" ∧
    ConfigDeclaration.Hardware
        ⟨[pDeclId.global], [], [pParameter.hardware "ethernet" [0, 1, 2, 3, 4, 5]],
          [], [], [], [], [], []⟩ =
      GoResult.err "more than one hardware address returned" :=
  ⟨ConfigDeclaration_Hardware_inverted.1
      ⟨[pDeclId.global], [], [], [], [], [], [], [], []⟩ (by rfl),
   ConfigDeclaration_Hardware_inverted.2
      ⟨[pDeclId.global], [], [pParameter.hardware "ethernet" [0, 1, 2, 3, 4, 5]],
        [], [], [], [], [], []⟩ (by rfl)⟩

/-- C6.  Both lookups error on zero matches (hence on the empty
configuration), error with the "more than one" message on two or
more matches (never resolving ambiguity by first match), and return
the unique declaration when exactly one matches. -/
theorem lookup_zero_one_many (e : DhcpConfiguration) (address : List Nat)
    (host : String) :
    (e.filter (matchesSubnet address) = [] →
      SubnetByAddress e address =
        Except.error "no network declarations containing address found") ∧
    (2 ≤ (e.filter (matchesSubnet address)).length →
      SubnetByAddress e address =
        Except.error "more than one network declaration found") ∧
    (∀ d, e.filter (matchesSubnet address) = [d] →
      SubnetByAddress e address = Except.ok d) ∧
    (e.filter (matchesHost host) = [] →
      HostByName e host =
        Except.error "no host declarations containing host found") ∧
    (2 ≤ (e.filter (matchesHost host)).length →
      HostByName e host =
        Except.error "more than one host declaration found") ∧
    (∀ d, e.filter (matchesHost host) = [d] →
      HostByName e host = Except.ok d) := by
  refine ⟨?_, ?_, ?_, ?_, ?_, ?_⟩
  · intro h; unfold SubnetByAddress; rw [h]
  · intro h
    unfold SubnetByAddress
    match hm : e.filter (matchesSubnet address) with
    | [] => rw [hm] at h; simp at h
    | [r] => rw [hm] at h; simp at h
    | a :: b :: t => rfl
  · intro d h; unfold SubnetByAddress; rw [h]
  · intro h; unfold HostByName; rw [h]
  · intro h
    unfold HostByName
    match hm : e.filter (matchesHost host) with
    | [] => rw [hm] at h; simp at h
    | [r] => rw [hm] at h; simp at h
    | a :: b :: t => rfl
  · intro d h; unfold HostByName; rw [h]

/-- Witness for C6: on the empty configuration both lookups fail
with the zero-match errors, on a two-subnet configuration the
address lookup fails with "more than one", and on a one-host
configuration the host lookup returns the declaration. -/
theorem lookup_zero_one_many_witness :
    SubnetByAddress [] [10, 0, 0, 1] =
        Except.error "no network declarations containing address found" ∧
      HostByName [] "a" =
        Except.error "no host declarations containing host found" ∧
      SubnetByAddress
          [⟨[pDeclId.subnet4 [10, 0, 0, 0] [255, 0, 0, 0]], [], [], [], [], [], [], [], []⟩,
           ⟨[pDeclId.subnet4 [10, 0, 0, 0] [255, 255, 0, 0]], [], [], [], [], [], [], [], []⟩]
          [10, 0, 0, 1] =
        Except.error "more than one network declaration found" ∧
      HostByName [⟨[pDeclId.host "a"], [], [], [], [], [], [], [], []⟩] "A" =
        Except.ok ⟨[pDeclId.host "a"], [], [], [], [], [], [], [], []⟩ :=
  ⟨(lookup_zero_one_many [] [10, 0, 0, 1] "a").1 (by rfl),
   (lookup_zero_one_many [] [10, 0, 0, 1] "a").2.2.2.1 (by rfl),
   (lookup_zero_one_many
      [⟨[pDeclId.subnet4 [10, 0, 0, 0] [255, 0, 0, 0]], [], [], [], [], [], [], [], []⟩,
       ⟨[pDeclId.subnet4 [10, 0, 0, 0] [255, 255, 0, 0]], [], [], [], [], [], [], [], []⟩]
      [10, 0, 0, 1] "a").2.1 (by decide),
   (lookup_zero_one_many [⟨[pDeclId.host "a"], [], [], [], [], [], [], [], []⟩]
      [10, 0, 0, 1] "A").2.2.2.2.2 _ (by decide)⟩

/-- C7 counterexample.  The claim states that a `remove_answer`
whose key was never added always produces an observable log line,
also when the network's answer table exists but lacks the key.  In
the replay of `answer VNET_0_A x` then `remove_answer VNET_0_B`,
the second command finds the table of network 0, deletes nothing,
and logs nothing: the state is unchanged and the log list is empty,
refuting the always-logged part of the claim. -/
theorem flatten_removeAnswer_silent_counterexample :
    flattenNetworkingConfig
        [networkingCommandEntry.answer ⟨"VNET_0_A"⟩ "x",
         networkingCommandEntry.removeAnswer ⟨"VNET_0_B"⟩] =
      flattenNetworkingConfig [networkingCommandEntry.answer ⟨"VNET_0_A"⟩ "x"] ∧
      (flattenNetworkingConfig
        [networkingCommandEntry.answer ⟨"VNET_0_A"⟩ "x",
         networkingCommandEntry.removeAnswer ⟨"VNET_0_B"⟩]).2 = [] := by
  constructor
  · rfl
  · rfl

theorem adelete_eq_self {α β : Type} [DecidableEq α] (l : List (α × β)) (key : α)
    (h : alookup l key = none) : adelete l key = l := by
  induction l with
  | nil => rfl
  | cons kv rest ih =>
      obtain ⟨k, v⟩ := kv
      by_cases hk : k = key
      · simp [alookup, hk] at h
      · have hr : alookup rest key = none := by
          simpa [alookup, hk] using h
        simp [adelete, List.filter_cons, hk] at ih ⊢
        exact ih hr

theorem upsert_lookup_self {α β : Type} [DecidableEq α] (l : List (α × β))
    (key : α) (val : β) (h : alookup l key = some val) : upsert l key val = l := by
  induction l with
  | nil => simp [alookup] at h
  | cons kv rest ih =>
      obtain ⟨k, v⟩ := kv
      by_cases hk : k = key
      · subst hk
        simp [alookup] at h
        simp [upsert, h]
      · have hr : alookup rest key = some val := by
          simpa [alookup, hk] using h
        simp [upsert, hk, ih hr]

/-- C7 (amended).  Removing an answer key that was never added
leaves the replayed state unchanged and never errors or panics; it
is logged exactly when the command's network index has no answer
table at all, and is a silent no-op when the table exists without
the key. -/
theorem flatten_removeAnswer_missing (c : NetworkingConfig)
    (logs : List String) (vnet : networkingVNET) :
    (∀ tbl, alookup c.answer vnet.Number = some tbl →
      alookup tbl vnet.Option = none →
      flattenStep (c, logs) (networkingCommandEntry.removeAnswer vnet) = (c, logs)) ∧
    (alookup c.answer vnet.Number = none →
      flattenStep (c, logs) (networkingCommandEntry.removeAnswer vnet) =
        (c, logs ++ ["unable to remove answer as specified by remove_answer"])) := by
  constructor
  · intro tbl htbl hkey
    simp only [flattenStep, htbl]
    rw [adelete_eq_self tbl _ hkey, upsert_lookup_self c.answer _ tbl htbl]
  · intro h
    simp only [flattenStep, h]

/-- Witness for the amended C7 theorem: with the table of network 0
holding only key A, removing key B changes nothing and logs
nothing; with no table at all, the removal is logged. -/
theorem flatten_removeAnswer_missing_witness :
    flattenStep ({ emptyNetworkingConfig with answer := [((0 : Int), [("A", "x")])] }, [])
        (networkingCommandEntry.removeAnswer ⟨"VNET_0_B"⟩) =
      ({ emptyNetworkingConfig with answer := [((0 : Int), [("A", "x")])] }, []) ∧
    flattenStep (emptyNetworkingConfig, [])
        (networkingCommandEntry.removeAnswer ⟨"VNET_0_B"⟩) =
      (emptyNetworkingConfig,
        ["unable to remove answer as specified by remove_answer"]) :=
  ⟨(flatten_removeAnswer_missing
      { emptyNetworkingConfig with answer := [((0 : Int), [("A", "x")])] } []
      ⟨"VNET_0_B"⟩).1 [("A", "x")] (by rfl) (by rfl),
   (flatten_removeAnswer_missing emptyNetworkingConfig [] ⟨"VNET_0_B"⟩).2 (by rfl)⟩

/-- C2 counterexample.  The claim gives explicit bridge-mapping
membership the highest precedence; in the code the answer walk runs
after the bridge walk, so network 2 — bridged by mapping but also
carrying a `VIRTUAL_ADAPTER=yes`, `NAT=yes` answer table — is
classified Nat, not Bridged. -/
theorem interfaceTypes_bridge_not_highest :
    networkingConfigInterfaceTypes c2Config 2 = some NetworkingType.Nat ∧
      networkingConfigInterfaceTypes c2Config 2 ≠ some NetworkingType.Bridged := by
  constructor
  · rfl
  · intro h
    exact absurd ((rfl : networkingConfigInterfaceTypes c2Config 2 =
      some NetworkingType.Nat).symm.trans h) (by decide)

theorem bridgeFold_apply (bm : List (String × Int))
    (r : Int → Option NetworkingType) (vmnet : Int) :
    (bm.foldl (fun r kv => updateMap r kv.2 NetworkingType.Bridged) r) vmnet =
      if vmnet ∈ bm.map Prod.snd then some NetworkingType.Bridged else r vmnet := by
  induction bm generalizing r with
  | nil => simp
  | cons kv rest ih =>
      rw [List.foldl_cons, ih]
      by_cases hmem : vmnet ∈ rest.map Prod.snd
      · simp [hmem]
      · by_cases hk : vmnet = kv.2
        · simp [hmem, hk, updateMap]
        · simp [hmem, hk, updateMap]

theorem alookup_eq_none_of_not_mem {α β : Type} [DecidableEq α]
    (l : List (α × β)) (key : α) (h : key ∉ l.map Prod.fst) :
    alookup l key = none := by
  induction l with
  | nil => rfl
  | cons kv rest ih =>
      have hk : kv.1 ≠ key := by
        intro he; exact h (by simp [he])
      have hrest : key ∉ rest.map Prod.fst := by
        intro he; exact h (by simp [he])
      simpa [alookup, hk] using ih hrest

theorem answerFold_apply (answers : List (Int × List (String × String)))
    (r : Int → Option NetworkingType) (vmnet : Int)
    (hnd : (answers.map Prod.fst).Nodup) :
    (answers.foldl (fun r kv => updateMap r kv.1 (answerClass kv.2)) r) vmnet =
      match alookup answers vmnet with
      | some table => some (answerClass table)
      | none => r vmnet := by
  revert hnd
  induction answers generalizing r with
  | nil => intro _; simp [alookup]
  | cons kv rest ih =>
      intro hnd
      obtain ⟨hk, hrest⟩ := List.nodup_cons.mp hnd
      rw [List.foldl_cons, ih _ hrest]
      by_cases hv : kv.1 = vmnet
      · have hnone : alookup rest vmnet = none := by
          apply alookup_eq_none_of_not_mem
          rw [← hv]
          simpa using hk
        simp [hnone, alookup, hv, updateMap]
      · cases hrl : alookup rest vmnet with
        | none => simp [alookup, hv, hrl, updateMap, Ne.symm hv]
        | some t => simp [alookup, hv, hrl]

theorem defaults_apply (vmnet : Int) :
    (updateMap (updateMap (updateMap (fun _ => none) 0 NetworkingType.Bridged)
      1 NetworkingType.Hostonly) 8 NetworkingType.Nat) vmnet =
      specDefaults vmnet := by
  unfold updateMap specDefaults
  split_ifs <;> first | rfl | omega

/-- The classification map written as the claim's precedence chain. -/
theorem interfaceTypes_apply (config : NetworkingConfig) (vmnet : Int)
    (hnd : (config.answer.map Prod.fst).Nodup) :
    networkingConfigInterfaceTypes config vmnet =
      match alookup config.answer vmnet with
      | some table => some (answerClass table)
      | none =>
          if vmnet ∈ config.bridgeMapping.map Prod.snd then
            some NetworkingType.Bridged
          else specDefaults vmnet := by
  unfold networkingConfigInterfaceTypes
  rw [answerFold_apply _ _ _ hnd]
  cases hrl : alookup config.answer vmnet with
  | some t => rfl
  | none =>
      simp only []
      rw [bridgeFold_apply, defaults_apply]

/-- C2 (amended).  The code's precedence is the reverse of the
claim's: an answer-derived classification overrides explicit
bridge-mapping membership, which in turn overrides the hard-coded
defaults (index 0 Bridged, index 1 Hostonly, index 8 Nat). -/
theorem interfaceTypes_precedence (config : NetworkingConfig) (vmnet : Int)
    (hnd : (config.answer.map Prod.fst).Nodup) :
    (∀ table, alookup config.answer vmnet = some table →
      networkingConfigInterfaceTypes config vmnet = some (answerClass table)) ∧
    (alookup config.answer vmnet = none →
      vmnet ∈ config.bridgeMapping.map Prod.snd →
      networkingConfigInterfaceTypes config vmnet = some NetworkingType.Bridged) ∧
    (alookup config.answer vmnet = none →
      vmnet ∉ config.bridgeMapping.map Prod.snd →
      networkingConfigInterfaceTypes config vmnet = specDefaults vmnet) := by
  refine ⟨?_, ?_, ?_⟩
  · intro table htbl
    rw [interfaceTypes_apply config vmnet hnd, htbl]
  · intro hnone hmem
    rw [interfaceTypes_apply config vmnet hnd, hnone]
    simp [hmem]
  · intro hnone hmem
    rw [interfaceTypes_apply config vmnet hnd, hnone]
    simp [hmem]

/-- Witness for the amended C2 theorem on `c2Config` extended with
a second bridge mapping: the answer table decides network 2 (Nat
despite its bridge mapping), the bridge mapping decides network 5,
and the defaults decide network 8. -/
theorem interfaceTypes_precedence_witness :
    networkingConfigInterfaceTypes
        { c2Config with bridgeMapping := [("en0", (2 : Int)), ("en1", (5 : Int))] } 2 =
      some NetworkingType.Nat ∧
    networkingConfigInterfaceTypes
        { c2Config with bridgeMapping := [("en0", (2 : Int)), ("en1", (5 : Int))] } 5 =
      some NetworkingType.Bridged ∧
    networkingConfigInterfaceTypes
        { c2Config with bridgeMapping := [("en0", (2 : Int)), ("en1", (5 : Int))] } 8 =
      specDefaults 8 :=
  ⟨(interfaceTypes_precedence
      { c2Config with bridgeMapping := [("en0", (2 : Int)), ("en1", (5 : Int))] } 2
      (by decide)).1 [("VIRTUAL_ADAPTER", "yes"), ("NAT", "yes")] (by rfl),
   (interfaceTypes_precedence
      { c2Config with bridgeMapping := [("en0", (2 : Int)), ("en1", (5 : Int))] } 5
      (by decide)).2.1 (by rfl) (by decide),
   (interfaceTypes_precedence
      { c2Config with bridgeMapping := [("en0", (2 : Int)), ("en1", (5 : Int))] } 8
      (by decide)).2.2 (by rfl) (by decide)⟩

end VMW
